import Mathlib

/-! Verification of the `uid` crate (`src/lib.rs`): a generator of process-wide
unique identifiers.  The crate's `IdImpl!` macro generates, for each of the
five integer widths (`usize`, `u8`, `u16`, `u32`, `u64`), a struct wrapping a
`NonZero` integer together with a `PhantomData<T>` marker, a static atomic
counter `NEXT_ID` initialized to `1`, a counted constructor `new` performing
`NEXT_ID.fetch_add(1, Ordering::Relaxed)` followed by `assert_ne!(id, 0)`,
an unchecked constructor `new_unchecked`, an accessor `get`, a `Default`
impl delegating to `new`, and `Debug` / `Display` impls.

The embedding below models a `w`-bit unsigned integer as a natural number
below `2 ^ w`; the atomic counter is explicit state threaded through the
constructor, and the `assert_ne!` panic is modelled as `Except.error`.
Since each call of `new` performs exactly one atomic operation on the
counter, any concurrent execution of `new` calls is equivalent to some
sequential interleaving of them, so the sequential state machine below also
covers the concurrent behaviour of the source.
-/

set_option maxRecDepth 20000

namespace Uid

/-- Equality of construction outcomes is decidable componentwise. -/
instance {ε α : Type} [DecidableEq ε] [DecidableEq α] : DecidableEq (Except ε α) :=
  fun a b =>
    match a, b with
    | Except.ok x, Except.ok y =>
      if h : x = y then Decidable.isTrue (by rw [h])
      else Decidable.isFalse (fun he => h (by cases he; rfl))
    | Except.error x, Except.error y =>
      if h : x = y then Decidable.isTrue (by rw [h])
      else Decidable.isFalse (fun he => h (by cases he; rfl))
    | Except.ok _, Except.error _ => Decidable.isFalse (fun he => by cases he)
    | Except.error _, Except.ok _ => Decidable.isFalse (fun he => by cases he)

/-- Embedding of the `NonZeroU8` / `NonZeroU16` / `NonZeroU32` / `NonZeroU64` /
`NonZeroUsize` field type: a natural number that is nonzero and fits in `w`
bits. -/
abbrev NonZero (w : Nat) : Type := {n : Nat // 0 < n ∧ n < 2 ^ w}

/-- Embedding of the structs generated by `IdImpl!` (`Id`, `IdU8`, `IdU16`,
`IdU32`, `IdU64`): a `NonZero` value `id` of width `w`, plus the
`phantom: PhantomData<T>` field, which is zero-sized and carries no data
(modelled by `Unit`).  `T` is the caller-supplied marker type. -/
structure Id (w : Nat) (T : Type) : Type where
  id : NonZero w
  phantom : Unit

/-- Equality of identifiers is decidable (the marker carries no data, so no
decidability assumption on `T` is needed, matching the derived `PartialEq`). -/
instance {w : Nat} {T : Type} : DecidableEq (Id w T) :=
  fun x y =>
    if h : x.id = y.id then
      Decidable.isTrue (by cases x; cases y; cases ‹Unit›; cases ‹Unit›; cases h; rfl)
    else
      Decidable.isFalse (fun he => h (congrArg Id.id he))

/-- Embedding of `Id::new_unchecked(id: $int_type)`: wrap an already-known raw
value without consulting any counter.  The function is `unsafe` in the source
with the safety precondition that `id` is not zero; the precondition (together
with the width bound carried by the `$int_type` argument type) is the
hypothesis `h`. -/
def Id.new_unchecked (w : Nat) (T : Type) (v : Nat) (h : 0 < v ∧ v < 2 ^ w) : Id w T :=
  ⟨⟨v, h⟩, ()⟩

/-- Embedding of `Id::get`: return the underlying integer value
(`self.id.get()`). -/
def Id.get {w : Nat} {T : Type} (x : Id w T) : Nat :=
  x.id.val

/-- Embedding of the static atomic counter type (`AtomicU8` etc.): a `w`-bit
unsigned integer cell. -/
structure AtomicCtr (w : Nat) : Type where
  val : Nat
  lt : val < 2 ^ w

/-- The initial counter contents: `NEXT_ID` is declared as
`<$atomic_type>::new(1)`. -/
def AtomicCtr.init (w : Nat) (h : 0 < w) : AtomicCtr w :=
  ⟨1, Nat.one_lt_two_pow_iff.mpr (by omega)⟩

/-- The panic message of the `assert_ne!` overflow check in `Id::new`. -/
def overflowMsg : String :=
  "overflow detected; please use a larger integer to or reconsider your use case"

/-- Embedding of `Id::new`: `NEXT_ID.fetch_add(1, Ordering::Relaxed)` returns
the pre-increment value and stores the wrapped successor (unsigned atomic
`fetch_add` wraps around on overflow); `assert_ne!(id, 0, ...)` then panics —
modelled as `Except.error` — when the fetched value is zero, and otherwise the
value is wrapped via `Self::new_unchecked(id)`.  Note that the counter is
advanced even when the assertion fails, exactly as in the source, where the
`fetch_add` happens before the assertion.  `static NEXT_ID` is declared inside
the generic `fn new` of `impl<T> $name<T>`; a static item in a generic
function is a single item shared by all monomorphizations, so all marker types
`T` of one width struct operate on the same counter — reflected here by the
counter argument `c` being threaded through calls independently of `T`. -/
def Id.new (w : Nat) (T : Type) (c : AtomicCtr w) : Except String (Id w T) × AtomicCtr w :=
  (if h : c.val = 0 then Except.error overflowMsg
   else Except.ok (Id.new_unchecked w T c.val ⟨Nat.pos_of_ne_zero h, c.lt⟩),
   ⟨(c.val + 1) % 2 ^ w, Nat.mod_lt _ (by positivity)⟩)

/-- Embedding of the `Default` impl, whose body is just `Self::new()`. -/
def Id.default (w : Nat) (T : Type) (c : AtomicCtr w) : Except String (Id w T) × AtomicCtr w :=
  Id.new w T c

/-- Run `Id::new` `n` times in sequence against the family's counter,
collecting the outcome of every call. -/
def newN (w : Nat) (T : Type) : Nat → AtomicCtr w → List (Except String (Id w T)) × AtomicCtr w
  | 0, c => ([], c)
  | Nat.succ m, c =>
    let r := Id.new w T c
    let rest := newN w T m r.2
    (r.1 :: rest.1, rest.2)

/-- Boolean success test on the outcome of a counted construction. -/
def resOk {w : Nat} {T : Type} : Except String (Id w T) → Bool
  | Except.ok _ => true
  | Except.error _ => false

/-- Numeric view of the outcome of a counted construction: the wrapped value
on success, `none` on panic. -/
def resVal {w : Nat} {T : Type} (r : Except String (Id w T)) : Option Nat :=
  r.toOption.map Id.get

/-- Embedding of the `Display` impl: it writes `self.id` with the plain
formatter, rendering exactly the decimal digits of the value. -/
def Id.displayStr {w : Nat} {T : Type} (x : Id w T) : String :=
  Nat.repr x.get

/-- Embedding of the `Debug` impl:
`f.debug_struct(stringify!($name)).field("id", &self.id).finish()` renders the
struct name followed by the `id` field, e.g. `Id \x7b id: 42 \x7d`. -/
def Id.debugStr {w : Nat} {T : Type} (name : String) (x : Id w T) : String :=
  name ++ (" \x7b id: " ++ Nat.repr x.get ++ " \x7d")

/-- The five struct names produced by the five `IdImpl!` invocations. -/
def idStructNames : List String :=
  ["Id", "IdU8", "IdU16", "IdU32", "IdU64"]

/-- Embedding of the derived `Ord` of `PhantomData<T>`: it always answers
`Ordering::Equal`, since `PhantomData` carries no data. -/
def phantomCmp : Unit → Unit → Ordering :=
  fun _ _ => Ordering.eq

/-- Embedding of the derived `Ord` of the ID structs: lexicographic over the
fields, i.e. the `NonZero` value `id` first, then the `phantom` field. -/
def Id.cmp {w : Nat} {T : Type} (x y : Id w T) : Ordering :=
  (compare x.get y.get).then (phantomCmp x.phantom y.phantom)

/-- Embedding of the derived `Hash` of the ID structs: the data fed to the
hasher is the `id` field's value followed by the `phantom` field, which feeds
nothing. -/
def Id.hashStream {w : Nat} {T : Type} (x : Id w T) : List Nat :=
  [x.get]

/-- The accessor returns exactly the raw value given to `new_unchecked`. -/
theorem Id.get_new_unchecked (w : Nat) (T : Type) (v : Nat) (h : 0 < v ∧ v < 2 ^ w) :
    (Id.new_unchecked w T v h).get = v :=
  rfl

/-- Two IDs of the same family are equal exactly when their wrapped values
are: the `phantom` field and the proposition fields carry no information. -/
theorem Id.eq_iff_get_eq {w : Nat} {T : Type} (x y : Id w T) :
    x = y ↔ x.get = y.get := by
  constructor
  · intro h
    rw [h]
  · intro h
    cases x with
    | mk a p =>
      cases y with
      | mk b q =>
        cases p
        cases q
        simp only [Id.get] at h
        have : a = b := Subtype.ext h
        rw [this]

/-- The counter is always advanced by one (mod `2 ^ w`) by a call of `new`,
whether or not the overflow assertion fires. -/
theorem Id.new_snd_val {w : Nat} {T : Type} (c : AtomicCtr w) :
    (Id.new w T c).2.val = (c.val + 1) % 2 ^ w :=
  rfl

/-- When the fetched counter value is nonzero, `new` succeeds and wraps it. -/
theorem Id.new_fst_of_ne {w : Nat} {T : Type} (c : AtomicCtr w) (h : c.val ≠ 0) :
    (Id.new w T c).1
      = Except.ok (Id.new_unchecked w T c.val ⟨Nat.pos_of_ne_zero h, c.lt⟩) := by
  simp [Id.new, h]

/-- When the fetched counter value is zero, `new` panics. -/
theorem Id.new_fst_of_eq {w : Nat} {T : Type} (c : AtomicCtr w) (h : c.val = 0) :
    (Id.new w T c).1 = Except.error overflowMsg := by
  simp [Id.new, h]

/-- A call of `new` succeeds exactly when the fetched counter value is
nonzero. -/
theorem resOk_new {w : Nat} {T : Type} (c : AtomicCtr w) :
    resOk (Id.new w T c).1 = true ↔ c.val ≠ 0 := by
  by_cases h : c.val = 0 <;> simp [Id.new, resOk, h]

/-- Core run lemma: if `n` consecutive calls of `new` all succeed, the wrapped
values are exactly the integers `c.val, c.val + 1, ..., c.val + n - 1`, and no
wrap-around occurred. -/
theorem newN_values {w : Nat} {T : Type} :
    ∀ (n : Nat) (c : AtomicCtr w), (newN w T n c).1.all resOk = true →
      ((newN w T n c).1.filterMap Except.toOption).map Id.get = List.range' c.val n
        ∧ c.val + n ≤ 2 ^ w
  | 0, c, _ => ⟨rfl, Nat.le_of_lt (by simpa using c.lt)⟩
  | Nat.succ m, c, hall => by
    rw [show (newN w T (Nat.succ m) c)
        = ((Id.new w T c).1 :: (newN w T m (Id.new w T c).2).1,
           (newN w T m (Id.new w T c).2).2) from rfl] at hall ⊢
    simp only [List.all_cons, Bool.and_eq_true] at hall
    obtain ⟨h1, hrest⟩ := hall
    have hc0 : c.val ≠ 0 := (resOk_new c).mp h1
    have hfst := Id.new_fst_of_ne (T := T) c hc0
    cases m with
    | zero =>
      refine ⟨?_, Nat.succ_le_of_lt c.lt⟩
      simp [newN, hfst, Except.toOption, List.range'_succ, Id.get_new_unchecked]
    | succ m' =>
      set c' := (Id.new w T c).2 with hc'
      have h2 : resOk (Id.new w T c').1 = true := by
        rw [show (newN w T (Nat.succ m') c')
            = ((Id.new w T c').1 :: (newN w T m' (Id.new w T c').2).1,
               (newN w T m' (Id.new w T c').2).2) from rfl] at hrest
        simp only [List.all_cons, Bool.and_eq_true] at hrest
        exact hrest.1
      have hc'0 : c'.val ≠ 0 := (resOk_new c').mp h2
      have hlt : c.val + 1 < 2 ^ w := by
        rcases Nat.lt_or_ge (c.val + 1) (2 ^ w) with h | h
        · exact h
        · exfalso
          have heq : c.val + 1 = 2 ^ w := Nat.le_antisymm (Nat.succ_le_of_lt c.lt) h
          have : c'.val = 0 := by
            rw [hc', Id.new_snd_val, heq, Nat.mod_self]
          exact hc'0 this
      have hc'val : c'.val = c.val + 1 := by
        rw [hc', Id.new_snd_val]
        exact Nat.mod_eq_of_lt hlt
      obtain ⟨ihm, ihle⟩ := newN_values (Nat.succ m') c' hrest
      constructor
      · rw [List.filterMap_cons, show ((Id.new w T c).1).toOption
            = some (Id.new_unchecked w T c.val ⟨Nat.pos_of_ne_zero hc0, c.lt⟩) by
              rw [hfst]; rfl]
        rw [List.map_cons, Id.get_new_unchecked, ihm, hc'val]
        simp [List.range'_succ]
      · omega

/-- Claim C1: for every marker type `T` and every width, any two identifiers
created through the counted constructor `new` for the same `(Width, Marker)`
pair are distinct as long as the generator has not overflowed (all calls
succeeded), and collecting the `n` constructed identifiers into a set yields
exactly `n` distinct elements. -/
theorem counted_ids_distinct (w : Nat) (T : Type) (n : Nat) (c : AtomicCtr w)
    (hok : (newN w T n c).1.all resOk = true) :
    ((newN w T n c).1.filterMap Except.toOption).Nodup
      ∧ ((newN w T n c).1.filterMap Except.toOption).length = n
      ∧ ((newN w T n c).1.filterMap Except.toOption).toFinset.card = n := by
  obtain ⟨hmap, -⟩ := newN_values n c hok
  have hnodupmap : (((newN w T n c).1.filterMap Except.toOption).map Id.get).Nodup := by
    rw [hmap]
    exact List.nodup_range' _ _
  have hnodup : ((newN w T n c).1.filterMap Except.toOption).Nodup := hnodupmap.of_map
  have hlen : ((newN w T n c).1.filterMap Except.toOption).length = n := by
    have := congrArg List.length hmap
    simpa using this
  exact ⟨hnodup, hlen, by rw [List.toFinset_card_of_nodup hnodup, hlen]⟩

/-- Witness for C1: three counted constructions on the 8-bit family from the
initial counter all succeed and produce three distinct identifiers. -/
theorem counted_ids_distinct_witness :
    ((newN 8 Unit 3 (AtomicCtr.init 8 (by decide))).1.filterMap Except.toOption).Nodup
      ∧ ((newN 8 Unit 3 (AtomicCtr.init 8 (by decide))).1.filterMap Except.toOption).length = 3
      ∧ ((newN 8 Unit 3 (AtomicCtr.init 8 (by decide))).1.filterMap
          Except.toOption).toFinset.card = 3 :=
  counted_ids_distinct 8 Unit 3 (AtomicCtr.init 8 (by decide)) (by decide)

/-- Claim C6: every identifier value is nonzero — by the `NonZero`
representation invariant for arbitrary identifiers, and in particular for any
identifier returned by the counted constructor. -/
theorem id_value_nonzero (w : Nat) (T : Type) :
    (∀ x : Id w T, 0 < x.get ∧ x.get ≠ 0)
      ∧ (∀ (c : AtomicCtr w) (x : Id w T),
          (Id.new w T c).1 = Except.ok x → x.get ≠ 0) := by
  constructor
  · intro x
    exact ⟨x.id.prop.1, Nat.pos_iff_ne_zero.mp x.id.prop.1⟩
  · intro c x _
    exact Nat.pos_iff_ne_zero.mp x.id.prop.1

/-- Witness for C6: a concrete identifier has a positive, nonzero value. -/
theorem id_value_nonzero_witness :
    0 < (Id.new_unchecked 8 Unit 7 (by decide)).get
      ∧ (Id.new_unchecked 8 Unit 7 (by decide)).get ≠ 0 :=
  (id_value_nonzero 8 Unit).1 (Id.new_unchecked 8 Unit 7 (by decide))

/-- Claim C7: for every nonzero raw value `v` (within the width), the unchecked
raw constructor wraps `v` — it takes no counter and touches no counter — and
the value accessor on the result returns exactly `v`. -/
theorem raw_roundtrip (w : Nat) (T : Type) (v : Nat) (h : 0 < v ∧ v < 2 ^ w) :
    (Id.new_unchecked w T v h).get = v :=
  rfl

/-- Witness for C7: the raw value 42 round-trips through `new_unchecked` and
`get`. -/
theorem raw_roundtrip_witness :
    (Id.new_unchecked 8 Unit 42 (by decide)).get = 42 :=
  raw_roundtrip 8 Unit 42 (by decide)

/-- Claim C9: equality, ordering and hashing of identifiers of the same
`(Width, Marker)` pair are structural over the wrapped value alone: two
identifiers are equal iff their values are equal, the derived ordering
coincides with the numeric ordering of the values, and the data fed to the
hasher is determined by the value alone — the marker contributes nothing. -/
theorem eq_ord_hash_structural (w : Nat) (T : Type) :
    (∀ x y : Id w T, x = y ↔ x.get = y.get)
      ∧ (∀ x y : Id w T, Id.cmp x y = compare x.get y.get)
      ∧ (∀ x y : Id w T, Id.hashStream x = Id.hashStream y ↔ x.get = y.get) := by
  refine ⟨fun x y => Id.eq_iff_get_eq x y, fun x y => ?_, fun x y => ?_⟩
  · cases h : compare x.get y.get <;>
      simp [Id.cmp, phantomCmp, Ordering.then, h]
  · simp [Id.hashStream]

/-- Witness for C9: the derived comparison of two concrete identifiers is the
numeric comparison of their values. -/
theorem eq_ord_hash_structural_witness :
    Id.cmp (Id.new_unchecked 8 Unit 2 (by decide)) (Id.new_unchecked 8 Unit 5 (by decide))
      = compare 2 5 :=
  (eq_ord_hash_structural 8 Unit).2.1
    (Id.new_unchecked 8 Unit 2 (by decide)) (Id.new_unchecked 8 Unit 5 (by decide))

/-- Claim C10: the `Default` impl delegates to the counted constructor `new`,
and every identifier produced through these construction paths carries the
counter-issued, nonzero value.  (That `new_unchecked` is not `pub`, so that
`new` and `default` are the only construction paths exposed to users, is a
visibility fact of the source checked by inspection.) -/
theorem public_ctor_paths (w : Nat) (T : Type) :
    (∀ c : AtomicCtr w, Id.default w T c = Id.new w T c)
      ∧ (∀ (c : AtomicCtr w) (x : Id w T),
          (Id.new w T c).1 = Except.ok x → x.get = c.val ∧ x.get ≠ 0) := by
  constructor
  · intro c
    rfl
  · intro c x h
    by_cases h0 : c.val = 0
    · rw [Id.new_fst_of_eq c h0] at h
      exact absurd h (by simp)
    · rw [Id.new_fst_of_ne c h0] at h
      have hx : x = Id.new_unchecked w T c.val ⟨Nat.pos_of_ne_zero h0, c.lt⟩ :=
        (Except.ok.injEq _ _ ▸ congrArg id h).symm ▸ by
          cases h
          rfl
      rw [hx, Id.get_new_unchecked]
      exact ⟨rfl, h0⟩

/-- Witness for C10: on the 8-bit family, `default` at the initial counter is
literally a call of `new`. -/
theorem public_ctor_paths_witness :
    Id.default 8 Unit (AtomicCtr.init 8 (by decide))
      = Id.new 8 Unit (AtomicCtr.init 8 (by decide)) :=
  (public_ctor_paths 8 Unit).1 (AtomicCtr.init 8 (by decide))

/-- Claim C2: the counted constructor reads-and-increments by 1 a counter
initialized to 1 and returns the identifier wrapping the pre-increment value;
hence, in the absence of overflow, the i-th (0-based) sequential counted
creation yields value `1 + i`, and of two identifiers created one after
another the second's value strictly exceeds the first's. -/
theorem counted_ctor_sequence (w : Nat) (T : Type) (hw : 0 < w) :
    (AtomicCtr.init w hw).val = 1
      ∧ (∀ c : AtomicCtr w, (Id.new w T c).2.val = (c.val + 1) % 2 ^ w)
      ∧ (∀ (c : AtomicCtr w) (x : Id w T),
          (Id.new w T c).1 = Except.ok x → x.get = c.val)
      ∧ (∀ n : Nat, (newN w T n (AtomicCtr.init w hw)).1.all resOk = true →
          ∀ i : Nat, i < n →
            (((newN w T n (AtomicCtr.init w hw)).1.filterMap Except.toOption).map Id.get)[i]?
              = some (1 + i))
      ∧ (∀ (c : AtomicCtr w) (x₁ x₂ : Id w T),
          (Id.new w T c).1 = Except.ok x₁ →
          (Id.new w T (Id.new w T c).2).1 = Except.ok x₂ →
          x₁.get < x₂.get) := by
  have hpre : ∀ (c : AtomicCtr w) (x : Id w T),
      (Id.new w T c).1 = Except.ok x → x.get = c.val := by
    intro c x h
    by_cases h0 : c.val = 0
    · rw [Id.new_fst_of_eq c h0] at h
      exact absurd h (by simp)
    · rw [Id.new_fst_of_ne c h0] at h
      cases h
      rfl
  have hok_ne : ∀ (c : AtomicCtr w) (x : Id w T),
      (Id.new w T c).1 = Except.ok x → c.val ≠ 0 := by
    intro c x h h0
    rw [Id.new_fst_of_eq c h0] at h
    exact absurd h (by simp)
  refine ⟨rfl, fun c => Id.new_snd_val c, hpre, ?_, ?_⟩
  · intro n hall i hi
    obtain ⟨hmap, -⟩ := newN_values n (AtomicCtr.init w hw) hall
    rw [hmap]
    rw [List.getElem?_range' _ _ hi]
    simp [AtomicCtr.init]
  · intro c x₁ x₂ h₁ h₂
    have hv₁ : x₁.get = c.val := hpre c x₁ h₁
    have hv₂ : x₂.get = (Id.new w T c).2.val := hpre _ x₂ h₂
    have hne₂ : (Id.new w T c).2.val ≠ 0 := hok_ne _ x₂ h₂
    rw [Id.new_snd_val] at hv₂ hne₂
    have hlt : c.val + 1 < 2 ^ w := by
      rcases Nat.lt_or_ge (c.val + 1) (2 ^ w) with h | h
      · exact h
      · exfalso
        have heq : c.val + 1 = 2 ^ w := Nat.le_antisymm (Nat.succ_le_of_lt c.lt) h
        rw [heq, Nat.mod_self] at hne₂
        exact hne₂ rfl
    rw [Nat.mod_eq_of_lt hlt] at hv₂
    omega

/-- Witness for C2: on the 8-bit family the counter starts at 1. -/
theorem counted_ctor_sequence_witness :
    (AtomicCtr.init 8 (by decide)).val = 1 :=
  (counted_ctor_sequence 8 Unit (by decide)).1

/-- Claim C3 (refuted — the counter is shared across marker types): the
`static NEXT_ID` sits in the generic `fn new`, and a static item in a generic
function is one item shared by all monomorphizations, so every marker type of
one width struct draws from the same counter.  Concretely, on the 8-bit width
with two distinct marker types `Bool` and `Unit`: the first construction for
marker `Bool` yields 1, but the following first construction for marker `Unit`
yields 2 (not 1, as the claim's scenario demands), and the second construction
for marker `Bool` yields 3 (not 2). -/
theorem shared_counter_across_markers_u8 :
    resVal (Id.new 8 Bool (AtomicCtr.init 8 (by decide))).1 = some 1
      ∧ resVal (Id.new 8 Unit
          (Id.new 8 Bool (AtomicCtr.init 8 (by decide))).2).1 = some 2
      ∧ resVal (Id.new 8 Bool (Id.new 8 Unit
          (Id.new 8 Bool (AtomicCtr.init 8 (by decide))).2).2).1 = some 3 := by
  refine ⟨by decide, by decide, by decide⟩

/-- Claim C4: in general a counted construction fails (with the overflow panic)
exactly when the fetched counter value is zero, i.e. when the counter wrapped
to zero; concretely, on the 8-bit family the first 255 calls succeed yielding
the values 1..255 and the 256th call fails with the overflow error rather than
returning a wrapped-around or zero value. -/
theorem overflow_fatal_u8 :
    (∀ (w : Nat) (T : Type) (c : AtomicCtr w),
        (Id.new w T c).1 = Except.error overflowMsg ↔ c.val = 0)
      ∧ ((newN 8 Unit 256 (AtomicCtr.init 8 (by decide))).1.map resVal
          = (List.range' 1 255).map some ++ [none])
      ∧ ((newN 8 Unit 256 (AtomicCtr.init 8 (by decide))).1.getLast?
          = some (Except.error overflowMsg)) := by
  refine ⟨?_, by decide, by decide⟩
  intro w T c
  constructor
  · intro h
    by_contra h0
    rw [Id.new_fst_of_ne c h0] at h
    exact absurd h (by simp)
  · intro h0
    exact Id.new_fst_of_eq c h0

/-- Claim C5 (refuted — the counter does not stay exhausted): on the 8-bit
family, the 256th call fails with the overflow panic, but the failing call has
already moved the counter past zero, so the 257th call succeeds and returns
value 1, duplicating the identifier issued by the very first call. -/
theorem overflow_not_permanent_u8 :
    ((newN 8 Unit 257 (AtomicCtr.init 8 (by decide))).1.map resVal)[255]? = some none
      ∧ ((newN 8 Unit 257 (AtomicCtr.init 8 (by decide))).1.map resVal)[256]? = some (some 1)
      ∧ ((newN 8 Unit 257 (AtomicCtr.init 8 (by decide))).1.map resVal)[0]? = some (some 1) := by
  refine ⟨by decide, by decide, by decide⟩

/-- Claim C8: an identifier holding raw value 42 renders its `Display` form as
exactly the text "42", and its `Debug` form as the struct name together with
the value 42, uniformly for each of the five generated struct names, which are
pairwise distinct. -/
theorem rendering_value_42 :
    Id.displayStr (Id.new_unchecked 8 Unit 42 (by decide)) = "42"
      ∧ (∀ name ∈ idStructNames,
          Id.debugStr name (Id.new_unchecked 8 Unit 42 (by decide))
            = name ++ " \x7b id: 42 \x7d")
      ∧ idStructNames.Nodup := by
  refine ⟨by decide, ?_, by decide⟩
  intro name _
  exact congrArg (String.append name) (by decide)

end Uid
